import Mathlib

/-!
Shallow embedding of the `AsyncEventPipeline` class (src/unnamed/part_001).

The source is a callback-based sequential task runner.  `execute` builds a
recursive async closure `runner(index, data)` over a mutable `currentIndex`
(initialised to `-1`); each step wraps the task invocation in a fresh
Promise whose `next` continuation either rejects with a truthy error or
resolves with the outcome of `runner(index + 1, dataForNextTask)`.

Modelling decisions, each traceable to the source:
* A JS value is `Val`; JS truthiness is `truthy`.
* A task's behaviour during one activation is a synchronous script
  (`List Action`): a sequence of continuation invocations and at most one
  synchronous throw (a throw ends the body).  Asynchronous work a task does
  after its synchronous portion can only surface through later continuation
  calls (same script model) or through the promise the task itself returns;
  the engine discards that return value, which the `funcArg` variant records
  in its `ret` field (never read by the engine, mirroring the statement
  `task(data, next);` whose value is dropped).
* A registry entry is the raw argument given to `add` (`TaskArg`), because
  the source pushes the untyped value and dispatches by `typeof` only at
  invocation time.
* ES promise semantics: a promise settles at most once; after the first
  `resolve`/`reject`, further calls are ignored, though the argument of a
  later `resolve(runner(...))` is still evaluated (so the recursive call and
  its side effects still happen).  A frame's fate is `Option Outcome`
  (`none` while unsettled) and `settle` keeps the first settlement.
* `Outcome.pending` is a promise that is never settled (a task that returns
  without calling `next`): `execute` then never settles either.
* The engine records an `Event` trace: one `invoke` event per actual task
  body invocation (with the dispatch mode and the payload it received) and
  one `next` event per continuation invocation.
-/

namespace AsyncEventPipeline

/-- JavaScript runtime values, enough to model payloads and errors. -/
inductive Val
  | undef
  | null
  | bool (b : Bool)
  | num (n : Int)
  | str (s : String)
  | errObj (msg : String)
  | typeError (msg : String)
  deriving DecidableEq, Repr

/-- JS truthiness: `undefined`, `null`, `false`, `0` and `""` are falsy;
`Error` / `TypeError` objects are always truthy. -/
def truthy : Val → Bool
  | .undef => false
  | .null => false
  | .bool b => b
  | .num n => n != 0
  | .str s => s != ""
  | .errObj _ => true
  | .typeError _ => true

/-- One step of a task body's synchronous run: invoke the continuation with
`(error, nextData)` (an omitted JS argument is `Val.undef`), or throw. -/
inductive Action
  | callNext (error nextData : Val)
  | throwErr (e : Val)
  deriving DecidableEq, Repr

/-- A JavaScript value handed to `add`/`use` and stored in the task registry.
`funcArg` is a callable (`typeof === 'function'`): `classForm` is the result
of the source's `/^class\s/` test on its textual form, `script` its body
behaviour, `ret` the value (promise) the call returns — which the engine
ignores.  `objArg` is a non-null object: `hasHandle` says whether
`typeof task.handle === 'function'`.  The remaining constructors are the
other JS values (`typeof` `'object'`-but-null, string, number, undefined,
boolean). -/
inductive TaskArg
  | funcArg (classForm : Bool) (script : List Action) (ret : Val)
  | objArg (hasHandle : Bool) (script : List Action)
  | nullArg
  | strArg (s : String)
  | numArg (n : Int)
  | undefArg
  | boolArg (b : Bool)
  deriving DecidableEq, Repr

/-- The eventual outcome of a promise: fulfilled, rejected, or never
settled. -/
inductive Outcome
  | resolved (v : Val)
  | rejected (e : Val)
  | pending
  deriving DecidableEq, Repr

/-- How the engine invoked a task body: `task(data, next)`,
`new task(data, next)`, or `task.handle(data, next)`. -/
inductive Mode
  | plainCall
  | construct
  | handleMethod
  deriving DecidableEq, Repr

/-- Observable engine events: a task body invocation (with its dispatch mode
and received payload), and a continuation invocation. -/
inductive Event
  | invoke (index : Nat) (mode : Mode) (data : Val)
  | next (index : Nat) (error nextData : Val)
  deriving DecidableEq, Repr

/-- The index carried by an event. -/
def Event.index : Event → Nat
  | .invoke i _ _ => i
  | .next i _ _ => i

/-- Project an `invoke` event to its task index. -/
def Event.invokeIndex : Event → Option Nat
  | .invoke i _ _ => some i
  | .next _ _ _ => none

/-- Mutable state shared by one `execute` call: the `currentIndex` cursor
(initialised to `-1` in the source) and the event trace. -/
structure St where
  currentIndex : Int
  trace : List Event
  deriving DecidableEq, Repr

/-- Append an event to the trace. -/
def St.push (σ : St) (e : Event) : St :=
  { σ with trace := σ.trace ++ [e] }

/-- A promise settles at most once: the first settlement wins, later
`resolve`/`reject` calls are ignored. -/
def settle : Option Outcome → Outcome → Option Outcome
  | none, o => some o
  | some o0, _ => some o0

/-- The outcome of a frame's promise given its fate: never settled means
pending forever. -/
def fateOutcome : Option Outcome → Outcome
  | none => .pending
  | some o => o

/-- `new Error('next() called multiple times in the same task.')`. -/
def protocolError : Val := .errObj "next() called multiple times in the same task."

/-- `new TypeError('Object tasks must implement a handle(data, next) method.')`. -/
def handleTypeError : Val := .typeError "Object tasks must implement a handle(data, next) method."

/-- `new TypeError('Task must be a function or class or object.')`. -/
def addTypeError : Val := .typeError "Task must be a function or class or object."

/-- The TypeError the runtime itself raises for `null.handle` (unreachable
through the public API, since `add` refuses `null`). -/
def nullHandleError : Val := .typeError "Cannot read properties of null (reading 'handle')"

/-- Run a task body's script inside one engine frame.  `step d σ` is the
success path of the source's `next`: `resolve(runner(index + 1, d))` — the
recursive call always happens (argument evaluation), while `settle` models
that only the first settlement fixes the frame's fate.  A truthy `error` is
`return reject(err)`; the body continues after `next` returns.  A throw ends
the body and is caught by the frame's `catch (err) { reject(err); }`. -/
def runScript (index : Nat) (data : Val) (step : Val → St → Outcome × St) :
    List Action → Option Outcome → St → Option Outcome × St
  | [], fate, σ => (fate, σ)
  | .throwErr e :: _, fate, σ => (settle fate (.rejected e), σ)
  | .callNext err nd :: restA, fate, σ =>
    let σ1 := σ.push (.next index err nd)
    if truthy err then
      runScript index data step restA (settle fate (.rejected err)) σ1
    else
      let dataForNextTask := if nd ≠ Val.undef then nd else data
      let res := step dataForNextTask σ1
      runScript index data step restA (settle fate res.1) res.2

/-- The recursive `runner(index, data)` of `execute`, with the registry
suffix from `index` on passed as `rest` (the source reads
`this.#tasks[index]`; the guard and cursor use the numeric index).  Mirrors
the source line by line: the double-invocation guard `index === currentIndex`
throws (the async function's promise rejects); then `currentIndex = index`;
an exhausted registry resolves with the data; otherwise a fresh promise runs
the task dispatched by shape, a synchronous throw rejecting that promise. -/
def runner : Nat → List TaskArg → Val → St → Outcome × St
  | index, rest, data, σ =>
    if (index : Int) = σ.currentIndex then
      (.rejected protocolError, σ)
    else
      let σ0 : St := { σ with currentIndex := (index : Int) }
      match rest with
      | [] => (.resolved data, σ0)
      | t :: restT =>
        let step := fun d σ1 => runner (index + 1) restT d σ1
        match t with
        | .funcArg classForm script _ret =>
          let mode := if classForm then Mode.construct else Mode.plainCall
          let σ1 := σ0.push (.invoke index mode data)
          let res := runScript index data step script none σ1
          (fateOutcome res.1, res.2)
        | .objArg hasHandle script =>
          if hasHandle then
            let σ1 := σ0.push (.invoke index .handleMethod data)
            let res := runScript index data step script none σ1
            (fateOutcome res.1, res.2)
          else
            (.rejected handleTypeError, σ0)
        | .nullArg => (.rejected nullHandleError, σ0)
        | _ => (.pending, σ0)

/-- `typeof task === 'function'`. -/
def typeofFunction : TaskArg → Bool
  | .funcArg _ _ _ => true
  | _ => false

/-- `typeof task === 'object'` (true for `null` as well, as in JS). -/
def typeofObject : TaskArg → Bool
  | .objArg _ _ => true
  | .nullArg => true
  | _ => false

/-- `task !== null` negated. -/
def isNullVal : TaskArg → Bool
  | .nullArg => true
  | _ => false

/-- `add(task)`: the registration type check and append of the source.
Failure is the thrown `TypeError`; success returns the updated registry
(the pipeline, for chaining). -/
def add (tasks : List TaskArg) (task : TaskArg) : Except Val (List TaskArg) :=
  if !(typeofFunction task || (typeofObject task && !isNullVal task)) then
    .error addTypeError
  else
    .ok (tasks ++ [task])

/-- `use(task)`: `return this.add(task);`. -/
def use (tasks : List TaskArg) (task : TaskArg) : Except Val (List TaskArg) :=
  add tasks task

/-- `execute(initialData)`: `return runner(0, initialData);` with a fresh
cursor `currentIndex = -1`. -/
def execute (tasks : List TaskArg) (initialData : Val) : Outcome × St :=
  runner 0 tasks initialData { currentIndex := -1, trace := [] }

/-- `exec(initialData)`: `return this.execute(initialData);`. -/
def exec (tasks : List TaskArg) (initialData : Val) : Outcome × St :=
  execute tasks initialData

/-!
Derived notions used to state the claims: families of well-behaved tasks,
the trace a successful chain produces, and equality of tasks up to the
callable's ignored return value.
-/

/-- The payload selection of the source's `next`:
`nextData !== undefined ? nextData : data`, applied to a `(error, nextData)`
argument pair. -/
def thread (d : Val) (p : Val × Val) : Val :=
  if p.2 ≠ Val.undef then p.2 else d

/-- A plain-function task that invokes its continuation exactly once, with
arguments `(p.1, p.2)`.  When `p.1` is falsy this is a task that "continues
successfully". -/
def oneShot (p : Val × Val) : TaskArg :=
  .funcArg false [.callNext p.1 p.2] Val.undef

/-- The event trace produced by a chain of `oneShot` tasks with falsy
errors, starting at task `index` with payload `d`: each task is invoked
with the current payload and fires its continuation once. -/
def fwdEvents : Nat → Val → List (Val × Val) → List Event
  | _, _, [] => []
  | idx, d, p :: ps =>
    .invoke idx .plainCall d :: .next idx p.1 p.2 :: fwdEvents (idx + 1) (thread d p) ps

/-- Two registry entries equal except possibly for the value a callable
returns (the promise the engine discards). -/
def sameButRet : TaskArg → TaskArg → Prop
  | .funcArg c1 s1 _, .funcArg c2 s2 _ => c1 = c2 ∧ s1 = s2
  | t1, t2 => t1 = t2

/-- The shapes `add` actually accepts: any callable, or any non-null object —
with or without a `handle` capability. -/
def registrable : TaskArg → Bool
  | .funcArg _ _ _ => true
  | .objArg _ _ => true
  | _ => false

/-!
Helper lemmas: the engine only ever appends to the trace, and a chain of
successfully-continuing `oneShot` tasks steps the runner across them in
registration order.
-/

/-- Running a script only appends to the trace, provided each recursive
step does. -/
theorem runScript_trace_mono (index : Nat) (data : Val) (step : Val → St → Outcome × St)
    (hstep : ∀ d σ, ∃ Δ, ((step d σ).2).trace = σ.trace ++ Δ) :
    ∀ (acts : List Action) (fate : Option Outcome) (σ : St),
      ∃ Δ, ((runScript index data step acts fate σ).2).trace = σ.trace ++ Δ := by
  intro acts
  induction acts with
  | nil => exact fun fate σ => ⟨[], by simp [runScript]⟩
  | cons a restA ih =>
    intro fate σ
    cases a with
    | throwErr e => exact ⟨[], by simp [runScript]⟩
    | callNext err nd =>
      by_cases he : truthy err
      · obtain ⟨Δ, hΔ⟩ := ih (settle fate (.rejected err)) (σ.push (.next index err nd))
        exact ⟨.next index err nd :: Δ, by simp [runScript, he, St.push] at hΔ ⊢; simp [hΔ]⟩
      · obtain ⟨Δ1, hΔ1⟩ := hstep (if nd ≠ Val.undef then nd else data) (σ.push (.next index err nd))
        obtain ⟨Δ2, hΔ2⟩ := ih
          (settle fate ((step (if nd ≠ Val.undef then nd else data) (σ.push (.next index err nd))).1))
          ((step (if nd ≠ Val.undef then nd else data) (σ.push (.next index err nd))).2)
        refine ⟨.next index err nd :: (Δ1 ++ Δ2), ?_⟩
        simp only [runScript, he, if_false, Bool.false_eq_true, ite_false]
        simp [St.push] at hΔ1 hΔ2 ⊢
        simp [hΔ2, hΔ1]

/-- The runner only appends to the trace. -/
theorem runner_trace_mono :
    ∀ (rest : List TaskArg) (idx : Nat) (d : Val) (σ : St),
      ∃ Δ, ((runner idx rest d σ).2).trace = σ.trace ++ Δ := by
  intro rest
  induction rest with
  | nil =>
    intro idx d σ
    rw [runner.eq_def]
    by_cases h : (idx : Int) = σ.currentIndex
    · exact ⟨[], by simp [h]⟩
    · exact ⟨[], by simp [h]⟩
  | cons t restT ih =>
    intro idx d σ
    rw [runner.eq_def]
    by_cases h : (idx : Int) = σ.currentIndex
    · exact ⟨[], by simp [h]⟩
    · cases t with
      | funcArg c s r =>
        obtain ⟨Δ, hΔ⟩ := runScript_trace_mono idx d (fun d1 σ2 => runner (idx + 1) restT d1 σ2)
          (fun d1 σ2 => ih (idx + 1) d1 σ2) s none
          (St.push { σ with currentIndex := (idx : Int) }
            (.invoke idx (if c then Mode.construct else Mode.plainCall) d))
        refine ⟨.invoke idx (if c then Mode.construct else Mode.plainCall) d :: Δ, ?_⟩
        simp [h, St.push] at hΔ ⊢
        simp [hΔ]
      | objArg hasH s =>
        cases hasH with
        | true =>
          obtain ⟨Δ, hΔ⟩ := runScript_trace_mono idx d (fun d1 σ2 => runner (idx + 1) restT d1 σ2)
            (fun d1 σ2 => ih (idx + 1) d1 σ2) s none
            (St.push { σ with currentIndex := (idx : Int) } (.invoke idx .handleMethod d))
          refine ⟨.invoke idx .handleMethod d :: Δ, ?_⟩
          simp [h, St.push] at hΔ ⊢
          simp [hΔ]
        | false => exact ⟨[], by simp [h]⟩
      | nullArg => exact ⟨[], by simp [h]⟩
      | strArg s => exact ⟨[], by simp [h]⟩
      | numArg n => exact ⟨[], by simp [h]⟩
      | undefArg => exact ⟨[], by simp [h]⟩
      | boolArg b => exact ⟨[], by simp [h]⟩



/-- Stepping the runner across a block of `oneShot` tasks whose errors are
all falsy: each is invoked once in order, threads the payload, and the run
continues with the remaining registry.  The cursor invariant
`currentIndex = index - 1` holds at every frame entry of a conforming run. -/
theorem forwarders_step (rest : List TaskArg) :
    ∀ (ps : List (Val × Val)) (idx : Nat) (d : Val) (σ : St),
      (∀ p ∈ ps, truthy p.1 = false) →
      σ.currentIndex = (idx : Int) - 1 →
      runner idx (ps.map oneShot ++ rest) d σ
        = runner (idx + ps.length) rest (ps.foldl thread d)
            { currentIndex := (idx : Int) + ps.length - 1,
              trace := σ.trace ++ fwdEvents idx d ps } := by
  intro ps
  induction ps with
  | nil =>
    intro idx d σ hfal hcur
    obtain ⟨ci, tr⟩ := σ
    simp only [St.mk.injEq] at hcur ⊢
    simp [fwdEvents, hcur]
  | cons p ps ih =>
    intro idx d σ hfal hcur
    have hp : truthy p.1 = false := hfal p (by simp)
    have hguard : ¬ ((idx : Int) = σ.currentIndex) := by omega
    have hrec := ih (idx + 1) (thread d p)
      (St.push (St.push { σ with currentIndex := (idx : Int) }
        (.invoke idx Mode.plainCall d)) (.next idx p.1 p.2))
      (fun q hq => hfal q (by simp [hq]))
      (by simp [St.push])
    rw [List.map_cons, List.cons_append, runner.eq_def]
    simp only [hguard, if_false, oneShot, ite_false]
    simp only [runScript, hp, Bool.false_eq_true, if_false, ite_false, ne_eq, St.push]
    simp only [thread, ne_eq, St.push] at hrec
    rw [hrec]
    simp only [settle, fateOutcome, Prod.mk.eta]
    have h1 : idx + 1 + ps.length = idx + (p :: ps).length := by simp; omega
    rw [h1]
    congr 1
    congr 1
    · push_cast
      omega
    · simp [fwdEvents, thread]


/-- Every event of a `oneShot` chain trace carries an index below the end of
the chain. -/
theorem fwdEvents_index_lt :
    ∀ (ps : List (Val × Val)) (idx : Nat) (d : Val) (ev : Event),
      ev ∈ fwdEvents idx d ps → ev.index < idx + ps.length := by
  intro ps
  induction ps with
  | nil => intro idx d ev h; simp [fwdEvents] at h
  | cons p ps ih =>
    intro idx d ev h
    simp only [fwdEvents, List.mem_cons] at h
    rcases h with h | h | h
    · subst h; simp [Event.index]
    · subst h; simp [Event.index]
    · have := ih (idx + 1) (thread d p) ev h
      simp only [List.length_cons]
      omega


/-- The invocation indexes of a `oneShot` chain trace are consecutive,
starting at the chain start. -/
theorem fwdEvents_invokes :
    ∀ (ps : List (Val × Val)) (idx : Nat) (d : Val),
      (fwdEvents idx d ps).filterMap Event.invokeIndex = List.range' idx ps.length := by
  intro ps
  induction ps with
  | nil => intro idx d; simp [fwdEvents]
  | cons p ps ih =>
    intro idx d
    simp [fwdEvents, Event.invokeIndex, ih, List.range'_succ]


/-- `sameButRet` either pairs two callables with equal shape and script, or
equal entries. -/
theorem sameButRet_cases (t1 t2 : TaskArg) (h : sameButRet t1 t2) :
    (∃ c s r1 r2, t1 = .funcArg c s r1 ∧ t2 = .funcArg c s r2) ∨ t1 = t2 := by
  cases t1 <;> cases t2 <;> simp [sameButRet] at h ⊢ <;> simp [h]


/-- The runner never consults the value a callable task returns: executions
over registries that agree up to `ret` coincide exactly. -/
theorem runner_ret_irrelevant :
    ∀ (tasks1 tasks2 : List TaskArg), List.Forall₂ sameButRet tasks1 tasks2 →
      ∀ (idx : Nat) (d : Val) (σ : St), runner idx tasks1 d σ = runner idx tasks2 d σ := by
  intro tasks1 tasks2 h
  induction h with
  | nil => intro idx d σ; rfl
  | @cons t1 t2 l1 l2 h1 h2 ih =>
    intro idx d σ
    rw [runner.eq_def]
    conv_rhs => rw [runner.eq_def]
    by_cases hg : (idx : Int) = σ.currentIndex
    · simp [hg]
    · rcases sameButRet_cases t1 t2 h1 with ⟨c, s, ret1, ret2, rfl, rfl⟩ | rfl
      · simp only [hg, if_false, ite_false]
        simp [ih]
      · simp only [hg, if_false, ite_false]
        cases t1 <;> simp [ih]


/-- A pipeline of successfully-continuing `oneShot` tasks resolves with the
threaded payload and produces exactly the in-order trace. -/
theorem oneShot_chain_run (ps : List (Val × Val)) (d : Val)
    (hfal : ∀ p ∈ ps, truthy p.1 = false) :
    execute (ps.map oneShot) d
      = (Outcome.resolved (ps.foldl thread d),
         { currentIndex := (ps.length : Int), trace := fwdEvents 0 d ps }) := by
  have h := forwarders_step [] ps 0 d { currentIndex := -1, trace := [] } hfal (by simp)
  simp only [List.append_nil] at h
  rw [execute, h, runner.eq_def]
  have hg : ¬ (((0 + ps.length : Nat) : Int) = (0 : Int) + ps.length - 1) := by push_cast; omega
  simp [hg]
  omega


/-- Unfolding: the `index === currentIndex` guard makes the runner frame
reject with the protocol error. -/
theorem runner_guard_fires (idx : Nat) (rest : List TaskArg) (d : Val) (σ : St)
    (h : (idx : Int) = σ.currentIndex) :
    runner idx rest d σ = (.rejected protocolError, σ) := by
  rw [runner.eq_def]; simp [h]


/-- Unfolding: past the last registered task the runner resolves with the
current data. -/
theorem runner_nil (idx : Nat) (d : Val) (σ : St) (h : ¬ ((idx : Int) = σ.currentIndex)) :
    runner idx [] d σ = (.resolved d, { σ with currentIndex := (idx : Int) }) := by
  rw [runner.eq_def]; simp [h]


/-- Unfolding: a callable task frame — invoke the body (as a constructor when
its textual form is class-style, else as a plain call) and run its script. -/
theorem runner_funcArg (idx : Nat) (c : Bool) (s : List Action) (r d : Val)
    (rest : List TaskArg) (σ : St) (h : ¬ ((idx : Int) = σ.currentIndex)) :
    runner idx (.funcArg c s r :: rest) d σ
      = (let res := runScript idx d (fun d1 σ2 => runner (idx + 1) rest d1 σ2) s none
            (St.push { σ with currentIndex := (idx : Int) }
              (.invoke idx (if c then Mode.construct else Mode.plainCall) d));
         (fateOutcome res.1, res.2)) := by
  rw [runner.eq_def]; simp [h]


/-- Unfolding: an object task with a `handle` capability is invoked through
it. -/
theorem runner_objHandle (idx : Nat) (s : List Action) (d : Val)
    (rest : List TaskArg) (σ : St) (h : ¬ ((idx : Int) = σ.currentIndex)) :
    runner idx (.objArg true s :: rest) d σ
      = (let res := runScript idx d (fun d1 σ2 => runner (idx + 1) rest d1 σ2) s none
            (St.push { σ with currentIndex := (idx : Int) } (.invoke idx .handleMethod d));
         (fateOutcome res.1, res.2)) := by
  rw [runner.eq_def]; simp [h]


/-- Unfolding: an object task without a `handle` capability rejects the frame
with the dispatch type error, with no invocation event. -/
theorem runner_objNoHandle (idx : Nat) (s : List Action) (d : Val)
    (rest : List TaskArg) (σ : St) (h : ¬ ((idx : Int) = σ.currentIndex)) :
    runner idx (.objArg false s :: rest) d σ
      = (.rejected handleTypeError, { σ with currentIndex := (idx : Int) }) := by
  rw [runner.eq_def]; simp [h]



/-!
The claims, settled.  Each claim theorem is stated over the embedded engine;
oneShot chains stand for tasks that invoke their continuation exactly once.
-/

/-- Claim C1, the code evaluated at the failing input.  A task that invokes
its continuation twice does NOT make `execute` reject: with one task calling
`next(undefined, 1)` then `next(undefined, 2)`, `execute(0)` resolves with
`1` — the guard error is thrown inside a promise that is already settled and
is discarded.  With a second pass-through task registered, the guard does not
even fire (the cursor has moved on), and the second call re-invokes task 1:
the trace shows `invoke 1` twice, the second carrying payload `2`. -/
theorem double_continuation_not_failing :
    (execute [TaskArg.funcArg false
        [Action.callNext Val.undef (Val.num 1), Action.callNext Val.undef (Val.num 2)]
        Val.undef] (Val.num 0)).1 = Outcome.resolved (Val.num 1)
    ∧ (execute [TaskArg.funcArg false
          [Action.callNext Val.undef (Val.num 1), Action.callNext Val.undef (Val.num 2)]
          Val.undef,
        TaskArg.funcArg false [Action.callNext Val.undef Val.undef] Val.undef] (Val.num 0)).1
        = Outcome.resolved (Val.num 1)
    ∧ (execute [TaskArg.funcArg false
          [Action.callNext Val.undef (Val.num 1), Action.callNext Val.undef (Val.num 2)]
          Val.undef,
        TaskArg.funcArg false [Action.callNext Val.undef Val.undef] Val.undef] (Val.num 0)).2.trace
        = [Event.invoke 0 Mode.plainCall (Val.num 0),
           Event.next 0 Val.undef (Val.num 1),
           Event.invoke 1 Mode.plainCall (Val.num 1),
           Event.next 1 Val.undef Val.undef,
           Event.next 0 Val.undef (Val.num 2),
           Event.invoke 1 Mode.plainCall (Val.num 2),
           Event.next 1 Val.undef Val.undef] := by decide


/-- Claim C2, counterexample: registering an object that exposes no `handle`
capability SUCCEEDS (the object is appended to the registry), whereas the
claim says any such value fails registration with a type error.  The source
only checks `typeof task === 'function' || (typeof task === 'object' && task
!== null)`. -/
theorem add_accepts_handleless_object :
    add [] (TaskArg.objArg false []) = Except.ok [TaskArg.objArg false []] := rfl


/-- Claim C2, amended: `add` succeeds exactly on callables and non-null
objects, appending the value and returning the pipeline; a missing `handle`
capability is not checked at registration (only at invocation).  Every other
value — string, `null`, number, `undefined`, boolean — fails immediately with
the registration type error, before any `execute` call. -/
theorem add_ok_iff_registrable (reg : List TaskArg) (v : TaskArg) :
    add reg v = if registrable v then Except.ok (reg ++ [v]) else Except.error addTypeError := by
  cases v <;> rfl


/-- Claim C3: when a task at any position of a conforming chain fires its
continuation with a falsy error and second argument `nd`, the next task (or
the final result when it was last) receives exactly `nd` whenever `nd` is
explicitly supplied (anything other than `undefined`, so explicit falsy
values such as `0` or `null` still replace the payload), and receives the
task's own payload unchanged otherwise. -/
theorem payload_threading (ps : List (Val × Val)) (e nd d r : Val)
    (script : List Action) (post : List TaskArg)
    (hfal : ∀ p ∈ ps, truthy p.1 = false) (he : truthy e = false) :
    (execute ((ps ++ [(e, nd)]).map oneShot) d).1
      = Outcome.resolved (if nd ≠ Val.undef then nd else ps.foldl thread d)
    ∧ ∃ Δ, (execute ((ps ++ [(e, nd)]).map oneShot
          ++ TaskArg.funcArg false script r :: post) d).2.trace
        = fwdEvents 0 d (ps ++ [(e, nd)])
          ++ Event.invoke (ps.length + 1) Mode.plainCall
              (if nd ≠ Val.undef then nd else ps.foldl thread d) :: Δ := by
  have hfal2 : ∀ p ∈ ps ++ [(e, nd)], truthy p.1 = false := by
    intro p hp
    rcases List.mem_append.mp hp with hp | hp
    · exact hfal p hp
    · simp at hp
      simp [hp, he]
  have hD : (ps ++ [(e, nd)]).foldl thread d
      = if nd ≠ Val.undef then nd else ps.foldl thread d := by
    simp [List.foldl_append, thread]
  constructor
  · rw [oneShot_chain_run _ d hfal2]
    rw [hD]
  · have h := forwarders_step (TaskArg.funcArg false script r :: post)
      (ps ++ [(e, nd)]) 0 d ⟨-1, []⟩ hfal2 (by simp)
    rw [execute, h, runner_funcArg _ _ _ _ _ _ _ (by simp)]
    simp only [St.push]
    obtain ⟨Δ0, h0⟩ := runScript_trace_mono _ _
      (fun d1 σ2 => runner (0 + (ps ++ [(e, nd)]).length + 1) post d1 σ2)
      (fun d1 σ2 => runner_trace_mono post _ d1 σ2) script none _
    refine ⟨Δ0, h0.trans ?_⟩
    simp [hD]


/-- Witness for claim C3 at a concrete input: the explicit falsy replacement
`0` reaches both the final result and the next task. -/
theorem payload_threading_witness :
    (∀ p ∈ [((Val.null : Val), (Val.num 7 : Val))], truthy p.1 = false)
    ∧ truthy Val.null = false
    ∧ ((execute (([(Val.null, Val.num 7)] ++ [(Val.null, Val.num 0)]).map oneShot) (Val.str "a")).1
        = Outcome.resolved (if (Val.num 0 : Val) ≠ Val.undef then Val.num 0
            else [((Val.null : Val), (Val.num 7 : Val))].foldl thread (Val.str "a"))
       ∧ ∃ Δ, (execute (([(Val.null, Val.num 7)] ++ [(Val.null, Val.num 0)]).map oneShot
             ++ TaskArg.funcArg false [] Val.undef :: []) (Val.str "a")).2.trace
           = fwdEvents 0 (Val.str "a") ([(Val.null, Val.num 7)] ++ [(Val.null, Val.num 0)])
             ++ Event.invoke ([((Val.null : Val), (Val.num 7 : Val))].length + 1) Mode.plainCall
                 (if (Val.num 0 : Val) ≠ Val.undef then Val.num 0
                  else [((Val.null : Val), (Val.num 7 : Val))].foldl thread (Val.str "a")) :: Δ) :=
  ⟨by decide, by decide,
   payload_threading [(Val.null, Val.num 7)] Val.null (Val.num 0) (Val.str "a") Val.undef [] []
     (by decide) (by decide)⟩


/-- Claim C4, counterexample: a task first continues successfully and then
invokes its continuation with the truthy error `"bad"`; `execute` still
resolves with `1` and the subsequent task HAS been invoked — the claim's
consequent fails although its antecedent (an invocation of T0's continuation
with a truthy error) holds. -/
theorem late_error_cannot_reject :
    (execute [TaskArg.funcArg false
        [Action.callNext Val.undef (Val.num 1), Action.callNext (Val.errObj "bad") Val.undef]
        Val.undef,
      TaskArg.funcArg false [Action.callNext Val.undef Val.undef] Val.undef] (Val.num 0)).1
      = Outcome.resolved (Val.num 1)
    ∧ Event.next 0 (Val.errObj "bad") Val.undef
        ∈ (execute [TaskArg.funcArg false
            [Action.callNext Val.undef (Val.num 1), Action.callNext (Val.errObj "bad") Val.undef]
            Val.undef,
          TaskArg.funcArg false [Action.callNext Val.undef Val.undef] Val.undef] (Val.num 0)).2.trace
    ∧ Event.invoke 1 Mode.plainCall (Val.num 1)
        ∈ (execute [TaskArg.funcArg false
            [Action.callNext Val.undef (Val.num 1), Action.callNext (Val.errObj "bad") Val.undef]
            Val.undef,
          TaskArg.funcArg false [Action.callNext Val.undef Val.undef] Val.undef] (Val.num 0)).2.trace := by
  decide


/-- Claim C4, amended: when the FIRST invocation of a task's continuation in
its (single-use) activation carries a truthy error `e`, and the tasks before
it each continued successfully once, `execute` rejects with exactly `e`
(preserving the error value), the trace ends at that task's error call, and
no later task is ever invoked — for every choice of subsequent registry
entries.  (A later, protocol-violating continuation call could still invoke
subsequent tasks, but can never alter the settled outcome.) -/
theorem error_short_circuit (ps : List (Val × Val)) (e nd d r : Val)
    (post : List TaskArg)
    (hfal : ∀ p ∈ ps, truthy p.1 = false) (he : truthy e = true) :
    (execute (ps.map oneShot ++ TaskArg.funcArg false [Action.callNext e nd] r :: post) d).1
      = Outcome.rejected e
    ∧ (execute (ps.map oneShot ++ TaskArg.funcArg false [Action.callNext e nd] r :: post) d).2.trace
        = fwdEvents 0 d ps
          ++ [Event.invoke ps.length Mode.plainCall (ps.foldl thread d),
              Event.next ps.length e nd]
    ∧ ∀ j mode dd, Event.invoke j mode dd
          ∈ (execute (ps.map oneShot ++ TaskArg.funcArg false [Action.callNext e nd] r :: post) d).2.trace
        → j ≤ ps.length := by
  have h := forwarders_step (TaskArg.funcArg false [Action.callNext e nd] r :: post)
    ps 0 d ⟨-1, []⟩ hfal (by simp)
  have hrun : runner (0 + ps.length) (TaskArg.funcArg false [Action.callNext e nd] r :: post)
      (ps.foldl thread d)
      { currentIndex := ((0 : Nat) : Int) + ps.length - 1, trace := [] ++ fwdEvents 0 d ps }
    = (Outcome.rejected e,
       { currentIndex := (ps.length : Int),
         trace := fwdEvents 0 d ps
           ++ [Event.invoke ps.length Mode.plainCall (ps.foldl thread d),
               Event.next ps.length e nd] }) := by
    rw [runner_funcArg _ _ _ _ _ _ _ (by simp; omega)]
    simp [runScript, he, settle, fateOutcome, St.push]
  rw [execute] at *
  rw [h] at *
  rw [hrun]
  refine ⟨rfl, rfl, ?_⟩
  intro j mode dd hmem
  simp only [List.mem_append, List.mem_cons, List.not_mem_nil, or_false] at hmem
  rcases hmem with hmem | hmem | hmem
  · have hb := fwdEvents_index_lt ps 0 d _ hmem
    simp [Event.index] at hb
    omega
  · cases hmem
    omega
  · cases hmem


/-- Witness for claim C4 at a concrete input: one forwarder, then a task that
signals `Error("bad")`, then a task that must never run. -/
theorem error_short_circuit_witness :
    (∀ p ∈ [((Val.undef : Val), (Val.num 5 : Val))], truthy p.1 = false)
    ∧ truthy (Val.errObj "bad") = true
    ∧ ((execute ([((Val.undef : Val), (Val.num 5 : Val))].map oneShot
          ++ TaskArg.funcArg false [Action.callNext (Val.errObj "bad") Val.undef] Val.undef
            :: [TaskArg.funcArg false [] Val.undef]) (Val.num 0)).1
        = Outcome.rejected (Val.errObj "bad")
       ∧ (execute ([((Val.undef : Val), (Val.num 5 : Val))].map oneShot
          ++ TaskArg.funcArg false [Action.callNext (Val.errObj "bad") Val.undef] Val.undef
            :: [TaskArg.funcArg false [] Val.undef]) (Val.num 0)).2.trace
        = fwdEvents 0 (Val.num 0) [(Val.undef, Val.num 5)]
          ++ [Event.invoke [((Val.undef : Val), (Val.num 5 : Val))].length Mode.plainCall
                ([((Val.undef : Val), (Val.num 5 : Val))].foldl thread (Val.num 0)),
              Event.next [((Val.undef : Val), (Val.num 5 : Val))].length (Val.errObj "bad") Val.undef]
       ∧ ∀ j mode dd, Event.invoke j mode dd
            ∈ (execute ([((Val.undef : Val), (Val.num 5 : Val))].map oneShot
                ++ TaskArg.funcArg false [Action.callNext (Val.errObj "bad") Val.undef] Val.undef
                  :: [TaskArg.funcArg false [] Val.undef]) (Val.num 0)).2.trace
          → j ≤ [((Val.undef : Val), (Val.num 5 : Val))].length) :=
  ⟨by decide, by decide,
   error_short_circuit [(Val.undef, Val.num 5)] (Val.errObj "bad") Val.undef (Val.num 0) Val.undef
     [TaskArg.funcArg false [] Val.undef] (by decide) (by decide)⟩


/-- Claim C5: at any position of a conforming chain, a task that throws a
truthy error `e` synchronously and a task that instead calls
`continuation(e)` produce the same externally observable outcome of
`execute`: both reject it with exactly `e`, for every subsequent registry. -/
theorem throw_as_failure (ps : List (Val × Val)) (e d r1 r2 : Val) (c1 c2 : Bool)
    (post : List TaskArg)
    (hfal : ∀ p ∈ ps, truthy p.1 = false) (he : truthy e = true) :
    (execute (ps.map oneShot ++ TaskArg.funcArg c1 [Action.throwErr e] r1 :: post) d).1
      = Outcome.rejected e
    ∧ (execute (ps.map oneShot ++ TaskArg.funcArg c2 [Action.callNext e Val.undef] r2 :: post) d).1
      = Outcome.rejected e
    ∧ (execute (ps.map oneShot ++ TaskArg.funcArg c1 [Action.throwErr e] r1 :: post) d).1
      = (execute (ps.map oneShot ++ TaskArg.funcArg c2 [Action.callNext e Val.undef] r2 :: post) d).1 := by
  have h1 := forwarders_step (TaskArg.funcArg c1 [Action.throwErr e] r1 :: post)
    ps 0 d ⟨-1, []⟩ hfal (by simp)
  have h2 := forwarders_step (TaskArg.funcArg c2 [Action.callNext e Val.undef] r2 :: post)
    ps 0 d ⟨-1, []⟩ hfal (by simp)
  have ha : (execute (ps.map oneShot ++ TaskArg.funcArg c1 [Action.throwErr e] r1 :: post) d).1
      = Outcome.rejected e := by
    rw [execute, h1, runner_funcArg _ _ _ _ _ _ _ (by simp; omega)]
    simp [runScript, settle, fateOutcome]
  have hb : (execute (ps.map oneShot ++ TaskArg.funcArg c2 [Action.callNext e Val.undef] r2 :: post) d).1
      = Outcome.rejected e := by
    rw [execute, h2, runner_funcArg _ _ _ _ _ _ _ (by simp; omega)]
    simp [runScript, he, settle, fateOutcome]
  exact ⟨ha, hb, ha.trans hb.symm⟩


/-- Witness for claim C5 at a concrete input: throwing `Error("boom")` and
calling `next(Error("boom"))` both reject `execute` with that error. -/
theorem throw_as_failure_witness :
    (∀ p ∈ ([] : List (Val × Val)), truthy p.1 = false)
    ∧ truthy (Val.errObj "boom") = true
    ∧ ((execute (([] : List (Val × Val)).map oneShot
          ++ TaskArg.funcArg false [Action.throwErr (Val.errObj "boom")] Val.undef :: []) (Val.num 1)).1
        = Outcome.rejected (Val.errObj "boom")
       ∧ (execute (([] : List (Val × Val)).map oneShot
          ++ TaskArg.funcArg false [Action.callNext (Val.errObj "boom") Val.undef] Val.undef :: []) (Val.num 1)).1
        = Outcome.rejected (Val.errObj "boom")
       ∧ (execute (([] : List (Val × Val)).map oneShot
          ++ TaskArg.funcArg false [Action.throwErr (Val.errObj "boom")] Val.undef :: []) (Val.num 1)).1
        = (execute (([] : List (Val × Val)).map oneShot
          ++ TaskArg.funcArg false [Action.callNext (Val.errObj "boom") Val.undef] Val.undef :: []) (Val.num 1)).1) :=
  ⟨by decide, by decide,
   throw_as_failure [] (Val.errObj "boom") (Val.num 1) Val.undef Val.undef false false []
     (by decide) (by decide)⟩


/-- Claim C6: `execute(x)` on a pipeline with zero registered tasks resolves
with exactly `x`, unchanged, invoking nothing. -/
theorem empty_pipeline_resolves_unchanged (x : Val) :
    (execute [] x).1 = Outcome.resolved x ∧ (execute [] x).2.trace = [] :=
  ⟨rfl, rfl⟩


/-- Claim C7: the engine dispatches by shape at the current index.  A
callable whose textual form is class-style is invoked as a constructor with
`(data, continuation)`; any other callable is invoked plainly; an object task
is invoked through its `handle` capability; and an object without a `handle`
capability fails the execution with the dispatch type error at invocation
time, invoking nothing. -/
theorem dispatch_by_shape (script : List Action) (r d : Val) (post : List TaskArg) :
    (∃ Δ, (execute (TaskArg.funcArg true script r :: post) d).2.trace
        = Event.invoke 0 Mode.construct d :: Δ)
    ∧ (∃ Δ, (execute (TaskArg.funcArg false script r :: post) d).2.trace
        = Event.invoke 0 Mode.plainCall d :: Δ)
    ∧ (∃ Δ, (execute (TaskArg.objArg true script :: post) d).2.trace
        = Event.invoke 0 Mode.handleMethod d :: Δ)
    ∧ (execute (TaskArg.objArg false script :: post) d).1 = Outcome.rejected handleTypeError
    ∧ (execute (TaskArg.objArg false script :: post) d).2.trace = [] := by
  refine ⟨?_, ?_, ?_, ?_, ?_⟩
  · rw [execute, runner_funcArg _ _ _ _ _ _ _ (by simp)]
    simp only [St.push]
    obtain ⟨Δ0, h0⟩ := runScript_trace_mono _ _
      (fun d1 σ2 => runner (0 + 1) post d1 σ2)
      (fun d1 σ2 => runner_trace_mono post _ d1 σ2) script none _
    refine ⟨Δ0, h0.trans ?_⟩
    simp
  · rw [execute, runner_funcArg _ _ _ _ _ _ _ (by simp)]
    simp only [St.push]
    obtain ⟨Δ0, h0⟩ := runScript_trace_mono _ _
      (fun d1 σ2 => runner (0 + 1) post d1 σ2)
      (fun d1 σ2 => runner_trace_mono post _ d1 σ2) script none _
    refine ⟨Δ0, h0.trans ?_⟩
    simp
  · rw [execute, runner_objHandle _ _ _ _ _ (by simp)]
    simp only [St.push]
    obtain ⟨Δ0, h0⟩ := runScript_trace_mono _ _
      (fun d1 σ2 => runner (0 + 1) post d1 σ2)
      (fun d1 σ2 => runner_trace_mono post _ d1 σ2) script none _
    refine ⟨Δ0, h0.trans ?_⟩
    simp
  · rw [execute, runner_objNoHandle _ _ _ _ _ (by simp)]
  · rw [execute, runner_objNoHandle _ _ _ _ _ (by simp)]


/-- Claim C8: for a pipeline whose tasks all continue successfully (each
fires its continuation once with a falsy error), execution is strictly
sequential: the trace is exactly invoke 0, continuation 0, invoke 1,
continuation 1, …, so each task begins only after the previous task's
continuation has fired, and the activation order is exactly the registration
order `0, 1, …, n-1`. -/
theorem sequential_order (ps : List (Val × Val)) (d : Val)
    (hfal : ∀ p ∈ ps, truthy p.1 = false) :
    (execute (ps.map oneShot) d).2.trace = fwdEvents 0 d ps
    ∧ ((execute (ps.map oneShot) d).2.trace).filterMap Event.invokeIndex
        = List.range ps.length
    ∧ (execute (ps.map oneShot) d).1 = Outcome.resolved (ps.foldl thread d) := by
  have h := oneShot_chain_run ps d hfal
  refine ⟨by rw [h], ?_, by rw [h]⟩
  rw [h]
  simp [fwdEvents_invokes, List.range_eq_range']


/-- Witness for claim C8 at a concrete two-task pipeline. -/
theorem sequential_order_witness :
    (∀ p ∈ [((Val.null : Val), (Val.num 2 : Val)), ((Val.undef : Val), (Val.num 3 : Val))],
        truthy p.1 = false)
    ∧ ((execute ([(Val.null, Val.num 2), (Val.undef, Val.num 3)].map oneShot) (Val.num 1)).2.trace
        = fwdEvents 0 (Val.num 1) [(Val.null, Val.num 2), (Val.undef, Val.num 3)]
       ∧ ((execute ([(Val.null, Val.num 2), (Val.undef, Val.num 3)].map oneShot) (Val.num 1)).2.trace).filterMap
            Event.invokeIndex
        = List.range [((Val.null : Val), (Val.num 2 : Val)), ((Val.undef : Val), (Val.num 3 : Val))].length
       ∧ (execute ([(Val.null, Val.num 2), (Val.undef, Val.num 3)].map oneShot) (Val.num 1)).1
        = Outcome.resolved
            ([((Val.null : Val), (Val.num 2 : Val)), ((Val.undef : Val), (Val.num 3 : Val))].foldl
              thread (Val.num 1))) :=
  ⟨by decide,
   sequential_order [(Val.null, Val.num 2), (Val.undef, Val.num 3)] (Val.num 1) (by decide)⟩


/-- Claim C9: `use` behaves identically to `add` (same check, same append,
same returned pipeline) and `exec` identically to `execute` (same outcome and
state for every registry and payload). -/
theorem aliases_agree (reg : List TaskArg) (t : TaskArg) (d : Val) :
    use reg t = add reg t ∧ exec reg d = execute reg d :=
  ⟨rfl, rfl⟩


/-- Claim C10: the engine ignores the value (promise) a task returns, so an
asynchronous rejection of that promise is never routed into `execute`'s
failure channel — executions over registries that differ only in the tasks'
return values coincide exactly; and a task whose synchronous portion
completes without calling its continuation leaves `execute` unsettled
(pending), whatever its returned promise does. -/
theorem async_rejection_ignored :
    (∀ (tasks1 tasks2 : List TaskArg) (d : Val),
        List.Forall₂ sameButRet tasks1 tasks2 → execute tasks1 d = execute tasks2 d)
    ∧ (∀ (c : Bool) (r d : Val) (post : List TaskArg),
        (execute (TaskArg.funcArg c [] r :: post) d).1 = Outcome.pending) := by
  constructor
  · intro t1 t2 d h
    exact runner_ret_irrelevant t1 t2 h 0 d _
  · intro c r d post
    rw [execute, runner_funcArg _ _ _ _ _ _ _ (by simp)]
    simp [runScript, fateOutcome]


/-- Witness for claim C10: a task whose returned promise rejects with
`Error("late rejection")` yields exactly the same execution as one returning
`undefined`. -/
theorem async_rejection_ignored_witness :
    List.Forall₂ sameButRet [TaskArg.funcArg false [] (Val.errObj "late rejection")]
      [TaskArg.funcArg false [] Val.undef]
    ∧ execute [TaskArg.funcArg false [] (Val.errObj "late rejection")] (Val.num 0)
        = execute [TaskArg.funcArg false [] Val.undef] (Val.num 0) :=
  ⟨List.Forall₂.cons ⟨rfl, rfl⟩ List.Forall₂.nil,
   async_rejection_ignored.1 [TaskArg.funcArg false [] (Val.errObj "late rejection")]
     [TaskArg.funcArg false [] Val.undef] (Val.num 0)
     (List.Forall₂.cons ⟨rfl, rfl⟩ List.Forall₂.nil)⟩


end AsyncEventPipeline
